import Mathlib

/-!
Verification of the conversation-routing core of an LLM application.

The embedding mirrors, definition by definition, the Python source under
`src/app/domain/`: `model_catalog.py`, `model_pool.py`, `domain_value.py`,
`domain_type.py`, `tools.py` and `conversation.py`.  Python strings are
`List Char`; fallible code returns `Except`; the mutable client-pool cache
and the external key-value store are explicit state values threaded through
the functions; the fast-model calls and the execution client are oracles
passed in as parameters.
-/

set_option maxRecDepth 4096

/-- Python strings, modelled as lists of characters. -/
abbrev Str := List Char

deriving instance DecidableEq for Except

/-- Whitespace test used by `str.strip()` (ASCII whitespace). -/
def charIsSpace (c : Char) : Bool :=
  c == ' ' || c == '\t' || c == '\n' || c == '\r' || c == '\x0b' || c == '\x0c'

/-- Python `str.strip()`: drop leading and trailing whitespace. -/
def pyStrip (s : Str) : Str :=
  ((s.dropWhile charIsSpace).reverse.dropWhile charIsSpace).reverse

/-- Python `identifier.partition(":")`: split at the first colon.
`none` means the separator is absent. -/
def pyPartitionColon : Str → Option (Str × Str)
  | [] => none
  | c :: rest =>
    if c = ':' then some ([], rest)
    else
      match pyPartitionColon rest with
      | none => none
      | some (a, b) => some (c :: a, b)

/-- The characters of `s` strictly before its first colon. -/
def beforeColon (s : Str) : Str := s.takeWhile (fun c => c ≠ ':')

/-- The characters of `s` strictly after its first colon. -/
def afterColon (s : Str) : Str := (s.dropWhile (fun c => c ≠ ':')).tail

/-- `domain_type.AIModelVendor`: the supported LLM providers. -/
inductive AIModelVendor where
  | anthropic
  | openai
deriving DecidableEq

/-- The `StrEnum` string value of a vendor. -/
def AIModelVendor.value : AIModelVendor → Str
  | .anthropic => "anthropic".data
  | .openai => "openai".data

/-- Python `AIModelVendor(s)`: resolve a string to the vendor enum;
`none` models the `ValueError` raised on an unrecognized value. -/
def vendorFromString (s : Str) : Option AIModelVendor :=
  if s = "anthropic".data then some AIModelVendor.anthropic
  else if s = "openai".data then some AIModelVendor.openai
  else none

/-- `domain_type.ConversationStatus`. -/
inductive ConversationStatus where
  | active
  | archived
  | deleted
deriving DecidableEq

/-- `model_catalog.ModelVariant.tier_class` literal type. -/
inductive TierClass where
  | fast
  | standard
  | deep
deriving DecidableEq

/-- `model_catalog.ModelVariant`: one concrete model offering. -/
structure ModelVariant where
  id : Str
  api_id : Str
  family : Str
  tier : Str
  tierClass : TierClass
  aliases : List Str
  notes : Option Str
deriving DecidableEq

/-- `ModelVariant.identifiers`: the lookup keys `{id, api_id, *aliases}`. -/
def ModelVariant.identifiers (v : ModelVariant) : List Str :=
  v.id :: v.api_id :: v.aliases

/-- The `_variant_lookup` dict comprehension: later variants overwrite
earlier ones, so lookup returns the last variant listing the identifier. -/
def variantLookup (models : List ModelVariant) (ident : Str) : Option ModelVariant :=
  models.foldl (fun acc v => if ident ∈ v.identifiers then some v else acc) none

/-- `model_catalog.VendorCatalog`: one vendor's model list plus flags. -/
structure VendorCatalog where
  vendor : AIModelVendor
  templateKey : Str
  supportsNativeThinking : Bool
  allowedMarkers : List Str
  availableModels : List ModelVariant
deriving DecidableEq

/-- `VendorCatalog.find_variant`: whitespace-trimmed identifier lookup;
`none` models the `KeyError` on a missing identifier. -/
def VendorCatalog.findVariant (vc : VendorCatalog) (identifier : Str) : Option ModelVariant :=
  variantLookup vc.availableModels (pyStrip identifier)

/-- `model_catalog.ModelCatalog`: the vendor → VendorCatalog mapping. -/
structure ModelCatalog where
  root : List (AIModelVendor × VendorCatalog)
deriving DecidableEq

/-- `ModelCatalog.vendor`: dict lookup by vendor enum; `none` models the
`KeyError` raised when the vendor is not registered in this catalog. -/
def ModelCatalog.vendorCat (c : ModelCatalog) (v : AIModelVendor) : Option VendorCatalog :=
  (c.root.find? (fun p => decide (p.1 = v))).map (fun p => p.2)

/-- `model_catalog.ModelSpec`: normalized (vendor, canonical id) pair. -/
structure ModelSpec where
  vendor : AIModelVendor
  variant_id : Str
deriving DecidableEq

/-- The distinct failure sites of `ModelCatalog.parse_spec` and friends:
the format `ValueError`, the enum-resolution `ValueError`, the
vendor-not-registered `KeyError` and the model-not-registered `KeyError`. -/
inductive ParseErr where
  | formatError
  | unknownVendor
  | vendorNotRegistered
  | unknownModel
deriving DecidableEq

/-- `ModelCatalog.parse_spec`: split on the first colon, resolve the vendor
token, look up the model token, return a normalized spec. -/
def ModelCatalog.parseSpec (c : ModelCatalog) (identifier : Str) : Except ParseErr ModelSpec :=
  match pyPartitionColon identifier with
  | none => .error .formatError
  | some (vendorKey, variantId) =>
    match vendorFromString (pyStrip vendorKey) with
    | none => .error .unknownVendor
    | some vendor =>
      match c.vendorCat vendor with
      | none => .error .vendorNotRegistered
      | some vc =>
        match vc.findVariant (pyStrip variantId) with
        | none => .error .unknownModel
        | some variant => .ok ⟨vendor, variant.id⟩

/-- `ModelCatalog.ensure_spec`: revalidate that a spec still resolves. -/
def ModelCatalog.ensureSpec (c : ModelCatalog) (spec : ModelSpec) : Except ParseErr ModelSpec :=
  match c.vendorCat spec.vendor with
  | none => .error .vendorNotRegistered
  | some vc =>
    match vc.findVariant spec.variant_id with
    | none => .error .unknownModel
    | some _ => .ok spec

/-- `ModelSpec.to_agent_model`: resolve the spec and return the API id. -/
def ModelSpec.toAgentModel (spec : ModelSpec) (c : ModelCatalog) : Except ParseErr Str :=
  match c.vendorCat spec.vendor with
  | none => .error .vendorNotRegistered
  | some vc =>
    match vc.findVariant spec.variant_id with
    | none => .error .unknownModel
    | some variant => .ok variant.api_id

/-- The loop body of `ModelRegistry._deduplicate_and_ensure_default`:
append each spec not yet seen, preserving first-seen order. -/
def dedupAppend (acc : List ModelSpec) : List ModelSpec → List ModelSpec
  | [] => acc
  | s :: rest => dedupAppend (if s ∈ acc then acc else acc ++ [s]) rest

/-- `ModelRegistry._deduplicate_and_ensure_default`: seed the output with the
default when it occurs in the input, then deduplicate in first-seen order. -/
def dedupeEnsureDefault (d : ModelSpec) (v : List ModelSpec) : List ModelSpec :=
  dedupAppend (if d ∈ v then [d] else []) v

/-- First-seen-order deduplication of a list of specs. -/
def pyDedup (l : List ModelSpec) : List ModelSpec := dedupAppend [] l

/-- `model_catalog.ModelRegistry`: catalog + default + allow-list. -/
structure ModelRegistry where
  catalog : ModelCatalog
  default : ModelSpec
  available : List ModelSpec
deriving DecidableEq

/-- `ModelRegistry.from_specs`: prepend the default to the candidate list,
then run the deduplicating validator. -/
def ModelRegistry.fromSpecs (catalog : ModelCatalog) (d : ModelSpec)
    (available : List ModelSpec) : ModelRegistry :=
  ⟨catalog, d, dedupeEnsureDefault d (d :: available)⟩

/-- Failures of `ModelRegistry.resolve_spec`. -/
inductive ResolveErr where
  | catalogErr (e : ParseErr)
  | notAllowListed
deriving DecidableEq

/-- `ModelRegistry.resolve_spec`: catalog-validate, then allow-list-check. -/
def ModelRegistry.resolveSpec (r : ModelRegistry) (spec : ModelSpec) : Except ResolveErr ModelSpec :=
  match r.catalog.ensureSpec spec with
  | .error e => .error (.catalogErr e)
  | .ok _ =>
    if spec ∈ r.available then .ok spec else .error .notAllowListed

/-- `domain_value.MessageId`: opaque unique message identifier. -/
structure MessageId where
  val : Nat
deriving DecidableEq

/-- `domain_value.ConversationId`: opaque unique conversation identifier. -/
structure ConversationId where
  val : Nat
deriving DecidableEq

/-- One part of a provider message: either a part carrying plain string
content (such as `UserPromptPart`) or any other part kind. -/
inductive MsgPart where
  | textPart (content : Str)
  | otherPart
deriving DecidableEq

/-- `pydantic_ai.ModelMessage`: a request or a response (with usage). -/
inductive ModelMessage where
  | request (parts : List MsgPart)
  | response (parts : List MsgPart) (totalTokens : Option Nat)
deriving DecidableEq

/-- The parts of a provider message. -/
def ModelMessage.msgParts : ModelMessage → List MsgPart
  | .request p => p
  | .response p _ => p

/-- `domain_value.StoredMessage`: a MessageId paired with a payload. -/
structure StoredMessage where
  id : MessageId
  content : ModelMessage
deriving DecidableEq

/-- `domain_value.ConversationHistory`: id + ordered messages + status. -/
structure ConversationHistory where
  id : ConversationId
  messages : List StoredMessage
  status : ConversationStatus
deriving DecidableEq

/-- `ConversationHistory.append_message`: functional update adding one
trailing message via `model_copy`. -/
def ConversationHistory.appendMessage (h : ConversationHistory) (m : StoredMessage) :
    ConversationHistory :=
  ⟨h.id, h.messages ++ [m], h.status⟩

/-- `ConversationHistory.message_content`: strip the identity layer. -/
def ConversationHistory.messageContent (h : ConversationHistory) : List ModelMessage :=
  h.messages.map (fun m => m.content)

/-- `ConversationHistory.used_tokens`: sum usage over response messages. -/
def ConversationHistory.usedTokens (h : ConversationHistory) : Nat :=
  h.messages.foldl
    (fun total m =>
      match m.content with
      | .response _ (some u) => total + u
      | _ => total) 0

/-- `tools.py`: the tool implementations, as opaque-to-the-claims tags. -/
inductive ToolFn where
  | calculator
  | tavilySearch
deriving DecidableEq

/-- `tools.ALL_TOOLS`: the process-wide tool name → implementation table. -/
def ALL_TOOLS : List (Str × ToolFn) :=
  [("calculator".data, ToolFn.calculator), ("tavily_search".data, ToolFn.tavilySearch)]

/-- The key set of `ALL_TOOLS`. -/
def allToolNames : List Str := ALL_TOOLS.map (fun p => p.1)

/-- Python `ALL_TOOLS[name]` guarded by `name in ALL_TOOLS`. -/
def lookupTool (name : Str) : Option ToolFn :=
  (ALL_TOOLS.find? (fun p => decide (p.1 = name))).map (fun p => p.2)

/-- `domain_type.ModelRoute`: execution-model routing destinations. -/
inductive ModelRoute where
  | anthropicSonnet
  | openaiGpt5
deriving DecidableEq

/-- The `StrEnum` string value of a route. -/
def ModelRoute.value : ModelRoute → Str
  | .anthropicSonnet => "anthropic:claude-sonnet-4-5-20250929".data
  | .openaiGpt5 => "openai:gpt-5".data

/-- `conversation.RouteDecision`: the model router's decision. -/
structure RouteDecision where
  model : ModelRoute
  reasoning : Option Str
deriving DecidableEq

/-- `conversation.ToolDecision`: the tool router's decision. -/
structure ToolDecision where
  tools : List Str
  reasoning : Option Str
deriving DecidableEq

/-- `conversation.ModelClassifier`: fast-model routing state. -/
structure ModelClassifier where
  spec : ModelSpec
  registry : ModelRegistry
  availableRoutes : List ModelRoute
deriving DecidableEq

/-- `conversation.ToolClassifier`: fast-model tool-selection state. -/
structure ToolClassifier where
  spec : ModelSpec
  registry : ModelRegistry
deriving DecidableEq

/-- The first part of a message carrying plain string content, if any —
the inner loop of `ModelClassifier.route`. -/
def firstTextContent : List MsgPart → Option Str
  | [] => none
  | .textPart s :: _ => some s
  | .otherPart :: rest => firstTextContent rest

/-- The `user_prompt` extraction of `ModelClassifier.route`: the text of the
latest message, or the empty string. -/
def latestUserPrompt (h : ConversationHistory) : Str :=
  match h.messages.getLast? with
  | none => []
  | some m => (firstTextContent m.content.msgParts).getD []

/-- The reasoning note attached when the decision's route is overridden:
the f-string `"Requested {decision.model} not available, using {fallback}"`. -/
def overrideNote (requested fallback : ModelRoute) : Str :=
  "Requested ".data ++ requested.value ++ " not available, using ".data ++ fallback.value

/-- Failures of `ModelClassifier.route`: an empty route tuple (prevented by
the constructor validator) or a catalog parse failure of the final route. -/
inductive RouteErr where
  | emptyRoutes
  | catalogErr (e : ParseErr)
deriving DecidableEq

/-- The fallback block of `ModelClassifier.route`: substitute the first
allowed route, with a reasoning note, when the decision is out of set. -/
def ModelClassifier.applyFallback (mc : ModelClassifier) (d : RouteDecision) :
    Except RouteErr RouteDecision :=
  if d.model ∈ mc.availableRoutes then .ok d
  else
    match mc.availableRoutes with
    | [] => .error .emptyRoutes
    | f :: _ => .ok ⟨f, some (overrideNote d.model f)⟩

/-- `ModelClassifier.route`: extract the latest text, consult the fast model
(the oracle), correct out-of-set decisions, parse the final route value. -/
def ModelClassifier.routeModel (mc : ModelClassifier) (oracle : Str → RouteDecision)
    (h : ConversationHistory) : Except RouteErr ModelSpec :=
  let decision := oracle (latestUserPrompt h)
  match mc.applyFallback decision with
  | .error e => .error e
  | .ok d =>
    match mc.registry.catalog.parseSpec d.model.value with
    | .error e => .error (.catalogErr e)
    | .ok spec => .ok spec

/-- `ToolClassifier.route`: consult the fast model (the oracle) and keep
only decision tools present in `ALL_TOOLS`. -/
def ToolClassifier.routeTools (_tc : ToolClassifier) (oracle : Str → ToolDecision)
    (query : Str) : List Str :=
  let decision := oracle query
  decision.tools.filter (fun t => decide (t ∈ allToolNames))

/-- A pydantic-ai `Agent` handle: `hid` models Python object identity of a
freshly constructed client; `model` and `tools` are its construction args. -/
structure Agent where
  hid : Nat
  model : Str
  tools : List ToolFn
deriving DecidableEq

/-- `model_pool.ModelPool`: the immutable part of the pool. -/
structure ModelPool where
  registry : ModelRegistry
deriving DecidableEq

/-- The pool cache key `(ModelSpec, frozenset[tool_names])`. -/
abbrev CacheKey := ModelSpec × Finset Str

/-- The pool's mutable `_cache` plus a supply of fresh object identities. -/
structure PoolState where
  cache : List (CacheKey × Agent)
  nextId : Nat
deriving DecidableEq

/-- Dict lookup in the pool cache. -/
def cacheLookup (cache : List (CacheKey × Agent)) (k : CacheKey) : Option Agent :=
  (cache.find? (fun e => decide (e.1 = k))).map (fun e => e.2)

/-- The `cache_key` computation of `ModelPool.get_model`: `None` stands for
the full tool-name set; an explicit list is keyed by its raw frozenset. -/
def keyOf (spec : ModelSpec) (toolNames : Option (List Str)) : CacheKey :=
  match toolNames with
  | none => (spec, allToolNames.toFinset)
  | some names => (spec, names.toFinset)

/-- The `tool_funcs` resolution of `ModelPool.get_model`: all tools for
`None`, otherwise the requested names with unknown names silently dropped. -/
def toolFuncsOf (toolNames : Option (List Str)) : List ToolFn :=
  match toolNames with
  | none => ALL_TOOLS.map (fun p => p.2)
  | some names => names.filterMap lookupTool

/-- `ModelPool.get_model`: return the cached client on a hit; on a miss
resolve the API model string, construct a fresh client, cache it. -/
def ModelPool.getModel (pool : ModelPool) (st : PoolState) (spec : ModelSpec)
    (toolNames : Option (List Str)) : Except ParseErr (Agent × PoolState) :=
  let key := keyOf spec toolNames
  match cacheLookup st.cache key with
  | some agent => .ok (agent, st)
  | none =>
    match spec.toAgentModel pool.registry.catalog with
    | .error e => .error e
    | .ok modelStr =>
      let agent : Agent := ⟨st.nextId, modelStr, toolFuncsOf toolNames⟩
      .ok (agent, ⟨(key, agent) :: st.cache, st.nextId + 1⟩)

/-- `conversation.Conversation`: the aggregate root. -/
structure Conversation where
  history : ConversationHistory
  registry : ModelRegistry
  modelPool : ModelPool
  router : Option ModelClassifier
  toolRouter : Option ToolClassifier
deriving DecidableEq

/-- `Conversation.start_with_id`: fresh history under a caller-supplied id. -/
def Conversation.startWithId (convId : ConversationId) (registry : ModelRegistry)
    (modelPool : ModelPool) (router : Option ModelClassifier)
    (toolRouter : Option ToolClassifier) (status : ConversationStatus) : Conversation :=
  ⟨⟨convId, [], status⟩, registry, modelPool, router, toolRouter⟩

/-- The environment of one `send_message` call: the fast-model oracles, the
fresh ids `uuid4()` will produce, and the messages the execution client
yields from `result.new_messages()`. -/
structure ExecEnv where
  routeOracle : Str → RouteDecision
  toolOracle : Str → ToolDecision
  userMsgId : MessageId
  responseIds : List MessageId
  responses : List ModelMessage

/-- Failures of `Conversation.send_message`. -/
inductive SendErr where
  | routeErr (e : RouteErr)
  | poolErr (e : ParseErr)
deriving DecidableEq

/-- Phase 1a of `send_message`: route when auto-routing with no explicit
spec and a router attached, else fall back to the registry default. -/
def selectSpec (c : Conversation) (env : ExecEnv) (updatedHistory : ConversationHistory)
    (spec? : Option ModelSpec) (autoRoute : Bool) : Except RouteErr ModelSpec :=
  match spec?, autoRoute, c.router with
  | some s, _, _ => .ok s
  | none, true, some r => r.routeModel env.routeOracle updatedHistory
  | none, _, _ => .ok c.registry.default

/-- Phase 1b of `send_message`: tool selection on the raw query text. -/
def selectTools (c : Conversation) (env : ExecEnv) (text : Str)
    (autoRoute : Bool) : Option (List Str) :=
  match autoRoute, c.toolRouter with
  | true, some tr => some (tr.routeTools env.toolOracle text)
  | _, _ => none

/-- `Conversation.send_message`: wrap the user text, run two-phase routing,
obtain a pooled client, wrap the client's response messages, and return a
new Conversation sharing every collaborator of the receiver. -/
def Conversation.sendMessage (c : Conversation) (env : ExecEnv) (st : PoolState)
    (text : Str) (spec? : Option ModelSpec) (autoRoute : Bool) :
    Except SendErr (Conversation × PoolState) :=
  let userMsg : StoredMessage := ⟨env.userMsgId, .request [.textPart text]⟩
  let updatedHistory := c.history.appendMessage userMsg
  match selectSpec c env updatedHistory spec? autoRoute with
  | .error e => .error (.routeErr e)
  | .ok spec =>
    match c.modelPool.getModel st spec (selectTools c env text autoRoute) with
    | .error e => .error (.poolErr e)
    | .ok (_agent, st1) =>
      let responseMsgs := List.zipWith (fun i m => StoredMessage.mk i m)
        env.responseIds env.responses
      let finalHistory := responseMsgs.foldl ConversationHistory.appendMessage updatedHistory
      .ok (⟨finalHistory, c.registry, c.modelPool, c.router, c.toolRouter⟩, st1)

/-- The persisted JSON document shape of a ConversationHistory, per the
serialization boundary: `{id, messages: [{id, content}], status}`. -/
structure HistoryDoc where
  id : ConversationId
  messages : List (MessageId × ModelMessage)
  status : ConversationStatus
deriving DecidableEq

/-- `ConversationHistory.model_dump_json`: serialize to the document shape. -/
def encodeHistory (h : ConversationHistory) : HistoryDoc :=
  ⟨h.id, h.messages.map (fun m => (m.id, m.content)), h.status⟩

/-- `ConversationHistory.model_validate_json`: rebuild from the document. -/
def decodeHistory (d : HistoryDoc) : ConversationHistory :=
  ⟨d.id, d.messages.map (fun p => ⟨p.1, p.2⟩), d.status⟩

/-- The external key-value store (Redis), newest binding first. -/
abbrev KVStore := List (Str × HistoryDoc)

/-- The persistence key `f"conversation:{conv_id.root}"`. -/
def convKey (convId : ConversationId) : Str :=
  "conversation:".data ++ Nat.toDigits 10 convId.val

/-- `redis.get`: first binding for the key, absent key is `none`. -/
def kvGet (st : KVStore) (k : Str) : Option HistoryDoc :=
  (st.find? (fun e => decide (e.1 = k))).map (fun e => e.2)

/-- `redis.set`: full overwrite under the key. -/
def kvSet (st : KVStore) (k : Str) (v : HistoryDoc) : KVStore := (k, v) :: st

/-- `Conversation.save`: serialize the history under its conversation key. -/
def Conversation.save (c : Conversation) (st : KVStore) : KVStore :=
  kvSet st (convKey c.history.id) (encodeHistory c.history)

/-- `Conversation.load`: fetch by key, `none` when absent, else rebuild the
conversation around the deserialized history. -/
def Conversation.load (convId : ConversationId) (st : KVStore) (registry : ModelRegistry)
    (modelPool : ModelPool) (router : Option ModelClassifier)
    (toolRouter : Option ToolClassifier) : Option Conversation :=
  match kvGet st (convKey convId) with
  | none => none
  | some d => some ⟨decodeHistory d, registry, modelPool, router, toolRouter⟩

/-- Concrete variant mirroring the Sonnet entry of `model_metadata.json`. -/
def sonnetVariant : ModelVariant :=
  ⟨"claude-sonnet-4-5-20250929".data, "claude-sonnet-4-5-20250929".data,
    "claude-sonnet".data, "sonnet-4.5".data, TierClass.standard,
    ["claude-sonnet-4.5".data], none⟩

/-- Concrete variant mirroring the Haiku entry of `model_metadata.json`. -/
def haikuVariant : ModelVariant :=
  ⟨"claude-3-5-haiku-20241022".data, "claude-3-5-haiku-20241022".data,
    "claude-haiku".data, "haiku-3.5".data, TierClass.fast,
    ["claude-haiku-3.5".data], none⟩

/-- Concrete variant mirroring the GPT-5 entry of `model_metadata.json`. -/
def gpt5Variant : ModelVariant :=
  ⟨"gpt-5".data, "gpt-5".data, "gpt".data, "gpt-5".data, TierClass.deep, [], none⟩

/-- Concrete Anthropic vendor catalog for witness evaluation. -/
def anthropicVendorCat : VendorCatalog :=
  ⟨AIModelVendor.anthropic, "anthropic".data, true, [], [sonnetVariant, haikuVariant]⟩

/-- Concrete OpenAI vendor catalog for witness evaluation. -/
def openaiVendorCat : VendorCatalog :=
  ⟨AIModelVendor.openai, "openai".data, false, [], [gpt5Variant]⟩

/-- Concrete two-vendor catalog for witness evaluation. -/
def demoCatalog : ModelCatalog :=
  ⟨[(AIModelVendor.anthropic, anthropicVendorCat), (AIModelVendor.openai, openaiVendorCat)]⟩

/-- Spec of the Sonnet variant. -/
def sonnetSpec : ModelSpec := ⟨AIModelVendor.anthropic, "claude-sonnet-4-5-20250929".data⟩

/-- Spec of the Haiku variant. -/
def haikuSpec : ModelSpec := ⟨AIModelVendor.anthropic, "claude-3-5-haiku-20241022".data⟩

/-- Registry allow-listing only Sonnet, with Sonnet as default. -/
def demoRegistry : ModelRegistry := ModelRegistry.fromSpecs demoCatalog sonnetSpec []

/-- Pool over the demo registry. -/
def demoPool : ModelPool := ⟨demoRegistry⟩

/-- The empty pool state. -/
def emptyPoolState : PoolState := ⟨[], 0⟩

/-- An execution environment with inert oracles and a two-message response. -/
def demoEnv : ExecEnv :=
  ⟨fun _ => ⟨ModelRoute.anthropicSonnet, none⟩,
    fun _ => ⟨[], none⟩,
    ⟨100⟩, [⟨101⟩, ⟨102⟩],
    [ModelMessage.response [MsgPart.otherPart] (some 7),
      ModelMessage.response [MsgPart.textPart "4".data] (some 5)]⟩

/-- A conversation with no classifiers attached, over the demo registry. -/
def demoConv : Conversation :=
  Conversation.startWithId ⟨0⟩ demoRegistry demoPool none none ConversationStatus.active

/-- A catalog registering only the Anthropic vendor. -/
def anthropicOnlyCatalog : ModelCatalog :=
  ⟨[(AIModelVendor.anthropic, anthropicVendorCat)]⟩

/-- A fast-model oracle that always proposes GPT-5. -/
def demoRouteOracle : Str → RouteDecision := fun _ => ⟨ModelRoute.openaiGpt5, none⟩

/-- A model classifier allowing only the Sonnet route. -/
def demoClassifier : ModelClassifier :=
  ⟨haikuSpec, demoRegistry, [ModelRoute.anthropicSonnet]⟩

/-- A fast-model oracle proposing one known and one hallucinated tool. -/
def demoToolOracle : Str → ToolDecision :=
  fun _ => ⟨["calculator".data, "bogus".data], none⟩

/-- A tool classifier over the demo registry. -/
def demoToolClassifier : ToolClassifier := ⟨haikuSpec, demoRegistry⟩

/-- Both known tool names, in one order. -/
def demoL1 : List Str := ["calculator".data, "tavily_search".data]

/-- Both known tool names, in the other order. -/
def demoL2 : List Str := ["tavily_search".data, "calculator".data]

/-- The agent constructed by the first demo `get_model` call. -/
def demoAgentCT : Agent :=
  ⟨0, "claude-sonnet-4-5-20250929".data, [ToolFn.calculator, ToolFn.tavilySearch]⟩

/-- The pool state after the first demo `get_model` call. -/
def demoStCT : PoolState := ⟨[(keyOf sonnetSpec (some demoL1), demoAgentCT)], 1⟩

/-- A tool request mixing a known and a hallucinated name. -/
def demoLBad : List Str := ["calculator".data, "bogus".data]

/-- The conversation value returned by the demo `send_message` call. -/
def demoConvAfter : Conversation :=
  ⟨⟨⟨0⟩,
    [⟨⟨100⟩, ModelMessage.request [MsgPart.textPart "2+2?".data]⟩,
      ⟨⟨101⟩, ModelMessage.response [MsgPart.otherPart] (some 7)⟩,
      ⟨⟨102⟩, ModelMessage.response [MsgPart.textPart "4".data] (some 5)⟩],
    ConversationStatus.active⟩, demoRegistry, demoPool, none, none⟩

/-- The pool state after the demo `send_message` call. -/
def demoStAfter : PoolState := ⟨[(keyOf sonnetSpec none, demoAgentCT)], 1⟩

/-- Leading-whitespace removal, the first half of `pyStrip`. -/
def stripFront (s : Str) : Str := s.dropWhile charIsSpace

/-- Trailing-whitespace removal, the second half of `pyStrip`. -/
def stripBack (s : Str) : Str := (s.reverse.dropWhile charIsSpace).reverse

/-- The head of `dedupAppend` over a nonempty accumulator is the
accumulator's head: appending at the tail never disturbs it. -/
theorem dedupAppend_head (l : List ModelSpec) :
    ∀ acc x, (dedupAppend (x :: acc) l).head? = some x := by
  induction l with
  | nil => intro acc x; rfl
  | cons s rest ih =>
    intro acc x
    simp only [dedupAppend]
    split
    · exact ih acc x
    · rw [List.cons_append]
      exact ih (acc ++ [s]) x

/-- Membership in `dedupAppend`: exactly the accumulator and input members. -/
theorem mem_dedupAppend (l : List ModelSpec) :
    ∀ acc a, a ∈ dedupAppend acc l ↔ a ∈ acc ∨ a ∈ l := by
  induction l with
  | nil => intro acc a; simp [dedupAppend]
  | cons s rest ih =>
    intro acc a
    simp only [dedupAppend]
    split
    · rename_i hmem
      rw [ih]
      simp only [List.mem_cons]
      constructor
      · rintro (h | h)
        · exact Or.inl h
        · exact Or.inr (Or.inr h)
      · rintro (h | h | h)
        · exact Or.inl h
        · exact Or.inl (h ▸ hmem)
        · exact Or.inr h
    · rw [ih]
      simp [List.mem_append, List.mem_cons, or_assoc, or_comm, or_left_comm]

/-- `dedupAppend` preserves freedom from duplicates. -/
theorem dedupAppend_nodup (l : List ModelSpec) :
    ∀ acc, acc.Nodup → (dedupAppend acc l).Nodup := by
  induction l with
  | nil => intro acc h; exact h
  | cons s rest ih =>
    intro acc h
    simp only [dedupAppend]
    split
    · exact ih acc h
    · rename_i hnot
      refine ih (acc ++ [s]) ?_
      simp [List.nodup_append, h, hnot]

/-- On input `d :: L`, the validator reduces to deduplication seeded by `[d]`. -/
theorem dedupeEnsureDefault_cons (d : ModelSpec) (L : List ModelSpec) :
    dedupeEnsureDefault d (d :: L) = dedupAppend [d] L := by
  simp [dedupeEnsureDefault, dedupAppend]

/-- First-seen deduplication of `d :: L` is deduplication seeded by `[d]`. -/
theorem pyDedup_cons (d : ModelSpec) (L : List ModelSpec) :
    pyDedup (d :: L) = dedupAppend [d] L := by
  simp [pyDedup, dedupAppend]

/-- C2: `append_message` returns a new ConversationHistory whose messages are
the receiver's messages with `m` as the single new trailing element, and the
id and status are unchanged.  (The receiver itself is a frozen value: the
embedding is a pure function of it, so it is untouched by construction.) -/
theorem c2_append_message_appends (h : ConversationHistory) (m : StoredMessage) :
    (h.appendMessage m).messages = h.messages ++ [m] ∧
    (h.appendMessage m).id = h.id ∧
    (h.appendMessage m).status = h.status :=
  ⟨rfl, rfl, rfl⟩

/-- C3: every `from_specs` construction with default `d` and candidate list
`L` — duplicates allowed, `d` anywhere or absent — yields an allow-list whose
first element is `d`, which contains `d`, has no duplicates, and equals the
first-seen-order deduplication of `d :: L` (so the non-default specs keep
their first-seen order). -/
theorem c3_from_specs_default_first_nodup (c : ModelCatalog) (d : ModelSpec)
    (L : List ModelSpec) :
    (ModelRegistry.fromSpecs c d L).available.head? = some d ∧
    d ∈ (ModelRegistry.fromSpecs c d L).available ∧
    (ModelRegistry.fromSpecs c d L).available.Nodup ∧
    (ModelRegistry.fromSpecs c d L).available = pyDedup (d :: L) := by
  have key : (ModelRegistry.fromSpecs c d L).available = dedupAppend [d] L :=
    dedupeEnsureDefault_cons d L
  refine ⟨?_, ?_, ?_, ?_⟩
  · rw [key]; exact dedupAppend_head L [] d
  · rw [key]; exact (mem_dedupAppend L [d] d).mpr (Or.inl (by simp))
  · rw [key]; exact dedupAppend_nodup L [d] (by simp)
  · rw [key, pyDedup_cons]

/-- `dropWhile` is idempotent. -/
theorem dropWhile_idem (p : Char → Bool) (l : Str) :
    (l.dropWhile p).dropWhile p = l.dropWhile p := by
  induction l with
  | nil => rfl
  | cons a t ih =>
    by_cases h : p a
    · simp [List.dropWhile_cons, h, ih]
    · simp [List.dropWhile_cons, h]

/-- The head of a `dropWhile` result fails the predicate. -/
theorem dropWhile_head_false (p : Char → Bool) (l : Str) (c : Char) (t : Str)
    (h : l.dropWhile p = c :: t) : p c = false := by
  induction l with
  | nil => cases h
  | cons a r ih =>
    rw [List.dropWhile_cons] at h
    by_cases hp : p a
    · rw [if_pos hp] at h; exact ih h
    · rw [if_neg hp] at h
      injection h with h1 _
      subst h1
      exact Bool.eq_false_iff.mpr hp

/-- Dropping never crosses a final element that fails the predicate. -/
theorem dropWhile_append_singleton (p : Char → Bool) (c : Char) (hc : p c = false)
    (u : Str) : (u ++ [c]).dropWhile p = u.dropWhile p ++ [c] := by
  induction u with
  | nil => simp [List.dropWhile_cons, hc]
  | cons a r ih =>
    by_cases hp : p a
    · simp [List.dropWhile_cons, hp, ih]
    · simp [List.dropWhile_cons, hp]

/-- `stripBack` keeps a head that fails the whitespace test. -/
theorem stripBack_cons_false (c : Char) (t : Str) (hc : charIsSpace c = false) :
    stripBack (c :: t) = c :: stripBack t := by
  simp [stripBack, List.reverse_cons, dropWhile_append_singleton charIsSpace c hc]

/-- `stripBack` is idempotent. -/
theorem stripBack_idem (s : Str) : stripBack (stripBack s) = stripBack s := by
  unfold stripBack
  rw [List.reverse_reverse, dropWhile_idem]

/-- `pyStrip` decomposes into its two halves. -/
theorem pyStrip_eq (s : Str) : pyStrip s = stripBack (stripFront s) := rfl

/-- Python `str.strip()` is idempotent. -/
theorem pyStrip_idem (s : Str) : pyStrip (pyStrip s) = pyStrip s := by
  rw [pyStrip_eq, pyStrip_eq]
  cases hf : stripFront s with
  | nil => rfl
  | cons c t =>
    have hc : charIsSpace c = false := dropWhile_head_false charIsSpace s c t hf
    rw [stripBack_cons_false c t hc]
    have hsf : stripFront (c :: stripBack t) = c :: stripBack t := by
      unfold stripFront
      rw [List.dropWhile_cons, hc]
      simp
    rw [hsf, stripBack_cons_false c _ hc, stripBack_idem]

/-- A string without a colon makes `partition(":")` report no separator. -/
theorem pyPartitionColon_of_not_mem (s : Str) (h : ':' ∉ s) :
    pyPartitionColon s = none := by
  induction s with
  | nil => rfl
  | cons c rest ih =>
    simp only [List.mem_cons, not_or] at h
    obtain ⟨h1, h2⟩ := h
    simp only [pyPartitionColon]
    rw [if_neg (fun hc => h1 hc.symm), ih h2]

/-- A string with a colon splits into the text before and after its first
colon. -/
theorem pyPartitionColon_of_mem (s : Str) (h : ':' ∈ s) :
    pyPartitionColon s = some (beforeColon s, afterColon s) := by
  induction s with
  | nil => cases h
  | cons c rest ih =>
    by_cases hc : c = ':'
    · subst hc
      simp [pyPartitionColon, beforeColon, afterColon, List.takeWhile_cons,
        List.dropWhile_cons]
    · have hr : ':' ∈ rest := by
        rcases List.mem_cons.mp h with h1 | h1
        · exact absurd h1.symm hc
        · exact h1
      simp only [pyPartitionColon]
      rw [if_neg hc, ih hr]
      simp [beforeColon, afterColon, List.takeWhile_cons, List.dropWhile_cons, hc]

/-- The `_variant_lookup` fold yields nothing exactly when the accumulator is
empty and no listed variant carries the identifier. -/
theorem variantFold_eq_none (ident : Str) (models : List ModelVariant) :
    ∀ acc : Option ModelVariant,
      models.foldl (fun acc v => if ident ∈ v.identifiers then some v else acc) acc = none ↔
        acc = none ∧ ∀ v ∈ models, ident ∉ v.identifiers := by
  induction models with
  | nil => intro acc; simp
  | cons m rest ih =>
    intro acc
    simp only [List.foldl_cons, ih, List.mem_cons]
    by_cases hm : ident ∈ m.identifiers
    · rw [if_pos hm]
      constructor
      · rintro ⟨h, _⟩; cases h
      · rintro ⟨_, hall⟩; exact absurd hm (hall m (Or.inl rfl))
    · rw [if_neg hm]
      constructor
      · rintro ⟨h1, h2⟩
        refine ⟨h1, fun v hv => ?_⟩
        rcases hv with h | h
        · subst h; exact hm
        · exact h2 v h
      · rintro ⟨h1, h2⟩
        exact ⟨h1, fun v hv => h2 v (Or.inr hv)⟩

/-- A successful `_variant_lookup` fold came from the accumulator or from a
listed variant carrying the identifier. -/
theorem variantFold_eq_some (ident : Str) (models : List ModelVariant) :
    ∀ (acc : Option ModelVariant) (v : ModelVariant),
      models.foldl (fun acc v => if ident ∈ v.identifiers then some v else acc) acc = some v →
      (v ∈ models ∧ ident ∈ v.identifiers) ∨ acc = some v := by
  induction models with
  | nil => intro acc v h; exact Or.inr h
  | cons m rest ih =>
    intro acc v h
    simp only [List.foldl_cons] at h
    rcases ih _ v h with h1 | h1
    · exact Or.inl ⟨List.mem_cons_of_mem m h1.1, h1.2⟩
    · by_cases hm : ident ∈ m.identifiers
      · rw [if_pos hm] at h1
        injection h1 with h1
        subst h1
        exact Or.inl ⟨List.mem_cons_self m rest, hm⟩
      · rw [if_neg hm] at h1
        exact Or.inr h1

/-- Pre-stripping the identifier does not change a variant lookup, since the
lookup strips again and stripping is idempotent. -/
theorem findVariant_strip (vc : VendorCatalog) (x : Str) :
    vc.findVariant (pyStrip x) = vc.findVariant x := by
  unfold VendorCatalog.findVariant
  rw [pyStrip_idem]

/-- C4: classification of `parse_spec` outcomes.  A string without a colon
fails with the format error; with a colon, an unrecognized trimmed vendor
token fails with the unknown-vendor error, a recognized vendor enum value
that the catalog does not register fails with the vendor-not-registered
error (the other vendor-category failure), a registered vendor whose trimmed
model token matches no variant identifier (id, api_id or alias) fails with
the unknown-model error, and a matching variant yields the normalized spec
built from the vendor and the variant's canonical id. -/
theorem c4_parse_spec_error_taxonomy (c : ModelCatalog) (s : Str) :
    (':' ∉ s → c.parseSpec s = .error .formatError) ∧
    (':' ∈ s → vendorFromString (pyStrip (beforeColon s)) = none →
      c.parseSpec s = .error .unknownVendor) ∧
    (∀ vendor, ':' ∈ s → vendorFromString (pyStrip (beforeColon s)) = some vendor →
      c.vendorCat vendor = none → c.parseSpec s = .error .vendorNotRegistered) ∧
    (∀ vendor vc, ':' ∈ s → vendorFromString (pyStrip (beforeColon s)) = some vendor →
      c.vendorCat vendor = some vc →
      (∀ v ∈ vc.availableModels, pyStrip (afterColon s) ∉ v.identifiers) →
      c.parseSpec s = .error .unknownModel) ∧
    (∀ vendor vc variant, ':' ∈ s →
      vendorFromString (pyStrip (beforeColon s)) = some vendor →
      c.vendorCat vendor = some vc →
      variantLookup vc.availableModels (pyStrip (afterColon s)) = some variant →
      variant ∈ vc.availableModels ∧ pyStrip (afterColon s) ∈ variant.identifiers ∧
      c.parseSpec s = .ok ⟨vendor, variant.id⟩) := by
  refine ⟨?_, ?_, ?_, ?_, ?_⟩
  · intro h
    unfold ModelCatalog.parseSpec
    rw [pyPartitionColon_of_not_mem s h]
  · intro h hv
    unfold ModelCatalog.parseSpec
    rw [pyPartitionColon_of_mem s h]
    simp only [hv]
  · intro vendor h hv hcat
    unfold ModelCatalog.parseSpec
    rw [pyPartitionColon_of_mem s h]
    simp only [hv, hcat]
  · intro vendor vc h hv hcat hnone
    unfold ModelCatalog.parseSpec
    rw [pyPartitionColon_of_mem s h]
    simp only [hv, hcat]
    have hlook : vc.findVariant (pyStrip (afterColon s)) = none := by
      unfold VendorCatalog.findVariant
      rw [pyStrip_idem]
      exact (variantFold_eq_none (pyStrip (afterColon s)) vc.availableModels none).mpr
        ⟨rfl, hnone⟩
    simp only [hlook]
  · intro vendor vc variant h hv hcat hlook
    have hmem : variant ∈ vc.availableModels ∧
        pyStrip (afterColon s) ∈ variant.identifiers := by
      rcases variantFold_eq_some (pyStrip (afterColon s)) vc.availableModels none
          variant hlook with h1 | h1
      · exact h1
      · cases h1
    refine ⟨hmem.1, hmem.2, ?_⟩
    unfold ModelCatalog.parseSpec
    rw [pyPartitionColon_of_mem s h]
    simp only [hv, hcat]
    have hfv : vc.findVariant (pyStrip (afterColon s)) = some variant := by
      unfold VendorCatalog.findVariant
      rw [pyStrip_idem]
      exact hlook
    simp only [hfv]

/-- Witness for C4: concrete inputs exercising every branch of the
classification on the demo catalogs. -/
theorem c4_parse_spec_error_taxonomy_witness :
    demoCatalog.parseSpec "anthropic".data = .error .formatError ∧
    demoCatalog.parseSpec "acme:gpt-5".data = .error .unknownVendor ∧
    anthropicOnlyCatalog.parseSpec "openai:gpt-5".data = .error .vendorNotRegistered ∧
    demoCatalog.parseSpec "anthropic:bogus-model".data = .error .unknownModel ∧
    demoCatalog.parseSpec "anthropic: claude-sonnet-4.5 ".data =
      .ok ⟨AIModelVendor.anthropic, "claude-sonnet-4-5-20250929".data⟩ := by
  refine ⟨?_, ?_, ?_, ?_, ?_⟩
  · exact (c4_parse_spec_error_taxonomy demoCatalog "anthropic".data).1 (by decide)
  · exact (c4_parse_spec_error_taxonomy demoCatalog "acme:gpt-5".data).2.1
      (by decide) (by decide)
  · exact (c4_parse_spec_error_taxonomy anthropicOnlyCatalog "openai:gpt-5".data).2.2.1
      AIModelVendor.openai (by decide) (by decide) (by decide)
  · exact (c4_parse_spec_error_taxonomy demoCatalog "anthropic:bogus-model".data).2.2.2.1
      AIModelVendor.anthropic anthropicVendorCat (by decide) (by decide) (by decide)
      (by decide)
  · exact ((c4_parse_spec_error_taxonomy demoCatalog
      "anthropic: claude-sonnet-4.5 ".data).2.2.2.2 AIModelVendor.anthropic
      anthropicVendorCat sonnetVariant (by decide) (by decide) (by decide)
      (by decide)).2.2

/-- C6: when the classifier's route list is nonempty and the fast model's
decision names a route outside it, `route()` substitutes the first allowed
route — attaching a reasoning note explaining the override — and returns the
ModelSpec parsed from that first route, without failing on account of the
out-of-set decision. -/
theorem c6_model_classifier_fallback (mc : ModelClassifier) (oracle : Str → RouteDecision)
    (h : ConversationHistory) (f : ModelRoute) (rest : List ModelRoute) (S : ModelSpec)
    (hroutes : mc.availableRoutes = f :: rest)
    (hout : (oracle (latestUserPrompt h)).model ∉ mc.availableRoutes)
    (hparse : mc.registry.catalog.parseSpec f.value = .ok S) :
    mc.routeModel oracle h = .ok S ∧
    mc.applyFallback (oracle (latestUserPrompt h)) =
      .ok ⟨f, some (overrideNote (oracle (latestUserPrompt h)).model f)⟩ := by
  have hfb : mc.applyFallback (oracle (latestUserPrompt h)) =
      .ok ⟨f, some (overrideNote (oracle (latestUserPrompt h)).model f)⟩ := by
    unfold ModelClassifier.applyFallback
    rw [if_neg hout, hroutes]
  refine ⟨?_, hfb⟩
  simp only [ModelClassifier.routeModel]
  rw [hfb]
  simp only [hparse]

/-- Witness for C6: the demo classifier allows only the Sonnet route, the
oracle proposes GPT-5, and routing returns the parsed Sonnet spec. -/
theorem c6_model_classifier_fallback_witness :
    demoClassifier.routeModel demoRouteOracle demoConv.history = .ok sonnetSpec :=
  (c6_model_classifier_fallback demoClassifier demoRouteOracle demoConv.history
    ModelRoute.anthropicSonnet [] sonnetSpec rfl (by decide) (by decide)).1

/-- C7: the tool classifier returns exactly the decision's tool names that
are present in the known tool registry — a name is returned precisely when
the decision proposed it and `ALL_TOOLS` knows it, names absent from the
registry are excluded, and an empty decision list yields the empty list
(the function is total, so no exclusion can raise). -/
theorem c7_tool_classifier_filters (tc : ToolClassifier) (oracle : Str → ToolDecision)
    (q : Str) :
    (∀ t, t ∈ tc.routeTools oracle q ↔ t ∈ (oracle q).tools ∧ t ∈ allToolNames) ∧
    (∀ t, t ∈ (oracle q).tools → t ∉ allToolNames → t ∉ tc.routeTools oracle q) ∧
    ((oracle q).tools = [] → tc.routeTools oracle q = []) := by
  refine ⟨?_, ?_, ?_⟩
  · intro t
    simp [ToolClassifier.routeTools, List.mem_filter]
  · intro t _ hnot hmem
    simp [ToolClassifier.routeTools, List.mem_filter] at hmem
    exact hnot hmem.2
  · intro hempty
    simp [ToolClassifier.routeTools, hempty]

/-- Witness for C7: on the demo oracle's decision, the hallucinated name is
excluded while the known name is kept. -/
theorem c7_tool_classifier_filters_witness :
    ("bogus".data ∉ demoToolClassifier.routeTools demoToolOracle [] ∧
      "calculator".data ∈ demoToolClassifier.routeTools demoToolOracle []) :=
  ⟨(c7_tool_classifier_filters demoToolClassifier demoToolOracle []).2.1
      "bogus".data (by decide) (by decide),
    ((c7_tool_classifier_filters demoToolClassifier demoToolOracle []).1
      "calculator".data).mpr ⟨by decide, by decide⟩⟩

/-- Looking up the key just inserted at the cache front succeeds. -/
theorem cacheLookup_cons_self (k : CacheKey) (a : Agent) (rest : List (CacheKey × Agent)) :
    cacheLookup ((k, a) :: rest) k = some a := by
  simp [cacheLookup, List.find?]

/-- A cache entry under a different key is transparent to lookup. -/
theorem cacheLookup_cons_ne (k k1 : CacheKey) (a : Agent) (rest : List (CacheKey × Agent))
    (h : k1 ≠ k) : cacheLookup ((k1, a) :: rest) k = cacheLookup rest k := by
  simp [cacheLookup, List.find?, h]

/-- A cache hit returns the cached handle with the state unchanged. -/
theorem getModel_hit (pool : ModelPool) (st : PoolState) (spec : ModelSpec)
    (tn : Option (List Str)) (a : Agent)
    (hl : cacheLookup st.cache (keyOf spec tn) = some a) :
    pool.getModel st spec tn = .ok (a, st) := by
  simp only [ModelPool.getModel, hl]

/-- A cache miss with a resolvable spec constructs, caches and returns a
fresh handle carrying the next object identity. -/
theorem getModel_miss (pool : ModelPool) (st : PoolState) (spec : ModelSpec)
    (tn : Option (List Str)) (m : Str)
    (hl : cacheLookup st.cache (keyOf spec tn) = none)
    (htm : spec.toAgentModel pool.registry.catalog = .ok m) :
    pool.getModel st spec tn =
      .ok (⟨st.nextId, m, toolFuncsOf tn⟩,
        ⟨(keyOf spec tn, ⟨st.nextId, m, toolFuncsOf tn⟩) :: st.cache, st.nextId + 1⟩) := by
  simp only [ModelPool.getModel, hl, htm]

/-- After any successful `get_model`, the requested key is cached and bound
to the returned handle. -/
theorem getModel_ok_lookup (pool : ModelPool) (st : PoolState) (spec : ModelSpec)
    (tn : Option (List Str)) (a : Agent) (st1 : PoolState)
    (h : pool.getModel st spec tn = .ok (a, st1)) :
    cacheLookup st1.cache (keyOf spec tn) = some a := by
  cases hl : cacheLookup st.cache (keyOf spec tn) with
  | some ag =>
    rw [getModel_hit pool st spec tn ag hl] at h
    injection h with h1
    injection h1 with ha hs
    subst ha
    subst hs
    exact hl
  | none =>
    cases htm : spec.toAgentModel pool.registry.catalog with
    | error e =>
      have herr : pool.getModel st spec tn = .error e := by
        simp only [ModelPool.getModel, hl, htm]
      rw [herr] at h
      cases h
    | ok m =>
      rw [getModel_miss pool st spec tn m hl htm] at h
      injection h with h1
      injection h1 with ha hs
      subst ha
      subst hs
      exact cacheLookup_cons_self _ _ _

/-- C5: for a fixed spec, two `get_model` calls whose tool-name inputs denote
the same set — permutations of each other, or `None` versus an explicit
permutation of all known tool names — hit the same cache entry: the second
call returns the first call's handle unchanged, with the state untouched.
A second request under a genuinely different tool-name set misses the cache
and yields a distinct handle. -/
theorem c5_pool_cache_equivalence (pool : ModelPool) (st : PoolState) (spec : ModelSpec) :
    (∀ L1 L2 a1 st1, List.Perm L1 L2 →
      pool.getModel st spec (some L1) = .ok (a1, st1) →
      pool.getModel st1 spec (some L2) = .ok (a1, st1)) ∧
    (∀ LF a0 st0, List.Perm LF allToolNames →
      pool.getModel st spec none = .ok (a0, st0) →
      pool.getModel st0 spec (some LF) = .ok (a0, st0)) ∧
    (∀ L1 L3 m, L1.toFinset ≠ L3.toFinset →
      cacheLookup st.cache (keyOf spec (some L1)) = none →
      cacheLookup st.cache (keyOf spec (some L3)) = none →
      spec.toAgentModel pool.registry.catalog = .ok m →
      ∃ a1 st1 a3 st3,
        pool.getModel st spec (some L1) = .ok (a1, st1) ∧
        pool.getModel st1 spec (some L3) = .ok (a3, st3) ∧
        a3 ≠ a1) := by
  refine ⟨?_, ?_, ?_⟩
  · intro L1 L2 a1 st1 hperm h1
    have hkey : keyOf spec (some L2) = keyOf spec (some L1) := by
      simp only [keyOf]
      rw [List.toFinset_eq_of_perm L2 L1 hperm.symm]
    have hl : cacheLookup st1.cache (keyOf spec (some L2)) = some a1 := by
      rw [hkey]
      exact getModel_ok_lookup pool st spec (some L1) a1 st1 h1
    exact getModel_hit pool st1 spec (some L2) a1 hl
  · intro LF a0 st0 hperm h0
    have hkey : keyOf spec (some LF) = keyOf spec none := by
      simp only [keyOf]
      rw [List.toFinset_eq_of_perm LF allToolNames hperm]
    have hl : cacheLookup st0.cache (keyOf spec (some LF)) = some a0 := by
      rw [hkey]
      exact getModel_ok_lookup pool st spec none a0 st0 h0
    exact getModel_hit pool st0 spec (some LF) a0 hl
  · intro L1 L3 m hne hl1 hl3 htm
    have hkeyne : keyOf spec (some L1) ≠ keyOf spec (some L3) := by
      simp only [keyOf]
      intro hcontra
      exact hne (congrArg Prod.snd hcontra)
    have h1 := getModel_miss pool st spec (some L1) m hl1 htm
    have hl3a : cacheLookup
        ((keyOf spec (some L1), (⟨st.nextId, m, toolFuncsOf (some L1)⟩ : Agent)) ::
          st.cache) (keyOf spec (some L3)) = none := by
      rw [cacheLookup_cons_ne _ _ _ _ hkeyne]
      exact hl3
    have h3 := getModel_miss pool
      ⟨(keyOf spec (some L1), ⟨st.nextId, m, toolFuncsOf (some L1)⟩) :: st.cache,
        st.nextId + 1⟩ spec (some L3) m hl3a htm
    refine ⟨_, _, _, _, h1, h3, ?_⟩
    intro hcontra
    have hhid := congrArg Agent.hid hcontra
    simp at hhid

/-- Witness for C5: requesting the two known tools in the opposite order
after a first concrete call returns the first call's cached handle. -/
theorem c5_pool_cache_equivalence_witness :
    demoPool.getModel demoStCT sonnetSpec (some demoL2) = .ok (demoAgentCT, demoStCT) :=
  (c5_pool_cache_equivalence demoPool emptyPoolState sonnetSpec).1 demoL1 demoL2
    demoAgentCT demoStCT (by decide) (by decide)

/-- A name outside `ALL_TOOLS` resolves to no tool function. -/
theorem lookupTool_eq_none (a : Str) (h : a ∉ allToolNames) : lookupTool a = none := by
  have h1 : ¬("calculator".data = a) :=
    fun hc => h (hc ▸ (by decide : "calculator".data ∈ allToolNames))
  have h2 : ¬("tavily_search".data = a) :=
    fun hc => h (hc ▸ (by decide : "tavily_search".data ∈ allToolNames))
  simp [lookupTool, ALL_TOOLS, List.find?, h1, h2]

/-- Pre-filtering to known tool names does not change the resolved tool
functions, since unknown names resolve to nothing and are dropped anyway. -/
theorem filterMap_lookupTool_filter (L : List Str) :
    (L.filter (fun n => decide (n ∈ allToolNames))).filterMap lookupTool =
      L.filterMap lookupTool := by
  induction L with
  | nil => rfl
  | cons a t ih =>
    by_cases h : a ∈ allToolNames
    · simp [List.filter_cons, h, List.filterMap_cons, ih]
    · simp [List.filter_cons, h, List.filterMap_cons, lookupTool_eq_none a h, ih]

/-- C10: `get_model` keys its cache by the raw requested tool-name set,
before unknown names are filtered out.  A request listing an unknown name is
cached under the raw frozenset and a subsequent request for the filtered
list misses that entry and constructs a second, distinct handle — even
though both handles are built with exactly the same resolved tool
functions. -/
theorem c10_pool_key_unfiltered (pool : ModelPool) (st : PoolState) (spec : ModelSpec)
    (L : List Str) (m : Str)
    (hbad : ∃ n ∈ L, n ∉ allToolNames)
    (hl1 : cacheLookup st.cache (keyOf spec (some L)) = none)
    (hl2 : cacheLookup st.cache
      (keyOf spec (some (L.filter (fun n => decide (n ∈ allToolNames))))) = none)
    (htm : spec.toAgentModel pool.registry.catalog = .ok m) :
    ∃ a1 st1 a2 st2,
      pool.getModel st spec (some L) = .ok (a1, st1) ∧
      pool.getModel st1 spec
        (some (L.filter (fun n => decide (n ∈ allToolNames)))) = .ok (a2, st2) ∧
      a1 ≠ a2 ∧ a1.tools = a2.tools ∧
      cacheLookup st1.cache (spec, L.toFinset) = some a1 := by
  obtain ⟨n, hnL, hnNot⟩ := hbad
  have hfne : L.toFinset ≠ (L.filter (fun n => decide (n ∈ allToolNames))).toFinset := by
    intro heq
    have hn1 : n ∈ L.toFinset := List.mem_toFinset.mpr hnL
    rw [heq] at hn1
    have hn2 := List.mem_filter.mp (List.mem_toFinset.mp hn1)
    exact hnNot (of_decide_eq_true hn2.2)
  have hkeyne : keyOf spec (some L) ≠
      keyOf spec (some (L.filter (fun n => decide (n ∈ allToolNames)))) := by
    simp only [keyOf]
    intro hc
    exact hfne (congrArg Prod.snd hc)
  have h1 := getModel_miss pool st spec (some L) m hl1 htm
  have hl2a : cacheLookup
      ((keyOf spec (some L), (⟨st.nextId, m, toolFuncsOf (some L)⟩ : Agent)) :: st.cache)
      (keyOf spec (some (L.filter (fun n => decide (n ∈ allToolNames))))) = none := by
    rw [cacheLookup_cons_ne _ _ _ _ hkeyne]
    exact hl2
  have h2 := getModel_miss pool
    ⟨(keyOf spec (some L), ⟨st.nextId, m, toolFuncsOf (some L)⟩) :: st.cache,
      st.nextId + 1⟩ spec (some (L.filter (fun n => decide (n ∈ allToolNames)))) m hl2a htm
  refine ⟨_, _, _, _, h1, h2, ?_, ?_, ?_⟩
  · intro hc
    have hhid := congrArg Agent.hid hc
    simp at hhid
  · simp only [toolFuncsOf]
    exact (filterMap_lookupTool_filter L).symm
  · exact cacheLookup_cons_self _ _ _

/-- Witness for C10: requesting the known calculator plus a hallucinated
name, then the filtered request, yields two distinct handles with identical
tool functions. -/
theorem c10_pool_key_unfiltered_witness :
    ∃ a1 st1 a2 st2,
      demoPool.getModel emptyPoolState sonnetSpec (some demoLBad) = .ok (a1, st1) ∧
      demoPool.getModel st1 sonnetSpec
        (some (demoLBad.filter (fun n => decide (n ∈ allToolNames)))) = .ok (a2, st2) ∧
      a1 ≠ a2 ∧ a1.tools = a2.tools ∧
      cacheLookup st1.cache (sonnetSpec, demoLBad.toFinset) = some a1 :=
  c10_pool_key_unfiltered demoPool emptyPoolState sonnetSpec demoLBad
    "claude-sonnet-4-5-20250929".data (by decide) (by decide) (by decide) (by decide)

/-- Folding `append_message` over a message list appends the whole list to
the history's message sequence, leaving id and status unchanged. -/
theorem foldl_appendMessage (msgs : List StoredMessage) :
    ∀ h : ConversationHistory,
      msgs.foldl ConversationHistory.appendMessage h = ⟨h.id, h.messages ++ msgs, h.status⟩ := by
  induction msgs with
  | nil => intro h; cases h; simp
  | cons m rest ih =>
    intro h
    simp only [List.foldl_cons]
    rw [ih]
    simp [ConversationHistory.appendMessage]

/-- Wrapping messages with ids and projecting the content back recovers the
original message list, whenever an id was supplied per message. -/
theorem zipWith_mk_content (ids : List MessageId) :
    ∀ msgs : List ModelMessage, ids.length = msgs.length →
      (List.zipWith (fun i m => StoredMessage.mk i m) ids msgs).map
        (fun sm => sm.content) = msgs := by
  induction ids with
  | nil =>
    intro msgs hlen
    cases msgs with
    | nil => rfl
    | cons m mt => simp at hlen
  | cons i it ih =>
    intro msgs hlen
    cases msgs with
    | nil => simp at hlen
    | cons m mt =>
      simp only [List.zipWith_cons_cons, List.map_cons]
      rw [ih mt (by simpa using hlen)]

/-- C1: whenever `send_message` returns normally after the execution client
yields the response messages in `env.responses`, the returned Conversation's
history is the receiver's messages followed by the freshly wrapped user
request and then the freshly wrapped responses in order; the returned
Conversation shares the receiver's registry, model pool, router and tool
router; and the conversation id and status are carried over unchanged (the
receiver itself is a frozen value of which the embedding is a pure
function, so it is untouched by the call). -/
theorem c1_send_message_frame (c : Conversation) (env : ExecEnv) (st : PoolState)
    (text : Str) (spec? : Option ModelSpec) (autoRoute : Bool)
    (c1 : Conversation) (st1 : PoolState)
    (hlen : env.responseIds.length = env.responses.length)
    (hok : c.sendMessage env st text spec? autoRoute = .ok (c1, st1)) :
    c1.history.messages =
      c.history.messages ++ (⟨env.userMsgId, .request [.textPart text]⟩ ::
        List.zipWith (fun i m => StoredMessage.mk i m) env.responseIds env.responses) ∧
    (List.zipWith (fun i m => StoredMessage.mk i m) env.responseIds env.responses).map
        (fun sm => sm.content) = env.responses ∧
    c1.history.id = c.history.id ∧
    c1.history.status = c.history.status ∧
    c1.registry = c.registry ∧
    c1.modelPool = c.modelPool ∧
    c1.router = c.router ∧
    c1.toolRouter = c.toolRouter := by
  simp only [Conversation.sendMessage] at hok
  split at hok
  · simp at hok
  · split at hok
    · simp at hok
    · rename_i spec hspec agent st2 hpool
      injection hok with hok1
      injection hok1 with hc hs
      subst hc
      subst hs
      have hfin : (List.zipWith (fun i m => StoredMessage.mk i m) env.responseIds
          env.responses).foldl ConversationHistory.appendMessage
          (c.history.appendMessage ⟨env.userMsgId, .request [.textPart text]⟩) =
          ⟨c.history.id,
            c.history.messages ++ (⟨env.userMsgId, .request [.textPart text]⟩ ::
              List.zipWith (fun i m => StoredMessage.mk i m) env.responseIds env.responses),
            c.history.status⟩ := by
        rw [foldl_appendMessage]
        simp [ConversationHistory.appendMessage]
      refine ⟨?_, zipWith_mk_content env.responseIds env.responses hlen,
        ?_, ?_, rfl, rfl, rfl, rfl⟩ <;> simp [hfin]

/-- Witness for C1: a concrete `send_message` run over the demo conversation
extends the history by the wrapped user message and the two responses. -/
theorem c1_send_message_frame_witness :
    demoConvAfter.history.id = demoConv.history.id ∧
    demoConvAfter.history.messages =
      demoConv.history.messages ++
        (⟨demoEnv.userMsgId, .request [.textPart "2+2?".data]⟩ ::
          List.zipWith (fun i m => StoredMessage.mk i m) demoEnv.responseIds
            demoEnv.responses) := by
  have h := c1_send_message_frame demoConv demoEnv emptyPoolState "2+2?".data none false
    demoConvAfter demoStAfter (by decide) (by decide)
  exact ⟨h.2.2.1, h.1⟩

/-- C8: loading a never-saved ConversationId is the non-error `None`
outcome; starting a conversation under that id, saving and loading returns a
conversation whose history equals in content (id, message sequence, status)
the history that was saved, stored under the key `conversation:` + id. -/
theorem c8_load_save_roundtrip (k : ConversationId) (st : KVStore)
    (registry : ModelRegistry) (pool : ModelPool)
    (router : Option ModelClassifier) (toolRouter : Option ToolClassifier)
    (status : ConversationStatus)
    (hnone : kvGet st (convKey k) = none) :
    Conversation.load k st registry pool router toolRouter = none ∧
    kvGet ((Conversation.startWithId k registry pool router toolRouter status).save st)
        (convKey k) =
      some (encodeHistory
        (Conversation.startWithId k registry pool router toolRouter status).history) ∧
    Conversation.load k
        ((Conversation.startWithId k registry pool router toolRouter status).save st)
        registry pool router toolRouter =
      some (Conversation.startWithId k registry pool router toolRouter status) := by
  refine ⟨?_, ?_, ?_⟩
  · simp [Conversation.load, hnone]
  · simp [Conversation.save, Conversation.startWithId, kvSet, kvGet, List.find?]
  · simp [Conversation.load, Conversation.save, Conversation.startWithId, kvSet, kvGet,
      List.find?, decodeHistory, encodeHistory]

/-- Witness for C8: the empty store misses id 5; save-then-load under id 5
recovers the started conversation. -/
theorem c8_load_save_roundtrip_witness :
    Conversation.load ⟨5⟩ [] demoRegistry demoPool none none = none ∧
    Conversation.load ⟨5⟩
        ((Conversation.startWithId ⟨5⟩ demoRegistry demoPool none none
          ConversationStatus.active).save [])
        demoRegistry demoPool none none =
      some (Conversation.startWithId ⟨5⟩ demoRegistry demoPool none none
        ConversationStatus.active) := by
  have h := c8_load_save_roundtrip ⟨5⟩ [] demoRegistry demoPool none none
    ConversationStatus.active (by decide)
  exact ⟨h.1, h.2.2⟩

/-- A spec that `ensure_spec` accepts resolves to an API model string. -/
theorem ensureSpec_toAgentModel (cat : ModelCatalog) (S : ModelSpec)
    (h : cat.ensureSpec S = .ok S) :
    ∃ api, S.toAgentModel cat = .ok api := by
  unfold ModelCatalog.ensureSpec at h
  unfold ModelSpec.toAgentModel
  cases hvc : cat.vendorCat S.vendor with
  | none => simp only [hvc] at h; simp at h
  | some vc =>
    simp only [hvc] at h ⊢
    cases hfv : vc.findVariant S.variant_id with
    | none => simp only [hfv] at h; simp at h
    | some v =>
      simp only [hfv]
      exact ⟨v.api_id, rfl⟩

/-- C9: an explicit spec handed to `send_message` bypasses the allow-list:
with the pool sharing the conversation's registry, a spec the catalog
validates but the registry does not allow-list — one `resolve_spec` would
reject with the not-allow-listed error — still executes successfully,
because the explicit spec short-circuits routing and flows straight into
`get_model`, which consults only the catalog. -/
theorem c9_explicit_spec_bypasses_allowlist (c : Conversation) (env : ExecEnv)
    (st : PoolState) (text : Str) (S : ModelSpec) (autoRoute : Bool)
    (hpoolreg : c.modelPool.registry = c.registry)
    (hvalid : c.registry.catalog.ensureSpec S = .ok S)
    (hnot : S ∉ c.registry.available) :
    c.registry.resolveSpec S = .error .notAllowListed ∧
    ∃ c1 st1, c.sendMessage env st text (some S) autoRoute = .ok (c1, st1) := by
  constructor
  · simp [ModelRegistry.resolveSpec, hvalid, hnot]
  · have hgm : ∃ a st2,
        c.modelPool.getModel st S (selectTools c env text autoRoute) = .ok (a, st2) := by
      obtain ⟨api, htm⟩ := ensureSpec_toAgentModel c.registry.catalog S hvalid
      rw [← hpoolreg] at htm
      cases hl : cacheLookup st.cache (keyOf S (selectTools c env text autoRoute)) with
      | some a => exact ⟨a, st, getModel_hit _ _ _ _ _ hl⟩
      | none => exact ⟨_, _, getModel_miss _ _ _ _ api hl htm⟩
    obtain ⟨a, st2, hgm⟩ := hgm
    refine ⟨⟨(List.zipWith (fun i m => StoredMessage.mk i m) env.responseIds
        env.responses).foldl ConversationHistory.appendMessage
        (c.history.appendMessage ⟨env.userMsgId, .request [.textPart text]⟩),
      c.registry, c.modelPool, c.router, c.toolRouter⟩, st2, ?_⟩
    simp only [Conversation.sendMessage, selectSpec, hgm]

/-- Witness for C9: Haiku is in the demo catalog but not in the demo
allow-list, yet an explicit-spec `send_message` with it succeeds. -/
theorem c9_explicit_spec_bypasses_allowlist_witness :
    demoConv.registry.resolveSpec haikuSpec = .error .notAllowListed ∧
    ∃ c1 st1, demoConv.sendMessage demoEnv emptyPoolState "2+2?".data
      (some haikuSpec) true = .ok (c1, st1) :=
  c9_explicit_spec_bypasses_allowlist demoConv demoEnv emptyPoolState "2+2?".data
    haikuSpec true rfl (by decide) (by decide)
